import Mathlib

/-!
Shallow embedding of the game-state machine of `src/firstapp.py`
(class `TicTacToe`): board representation, win/draw detection, the
computer's move-selection heuristic, click handling with its cooldown
gate, move history with undo, score bookkeeping, and the menu /
winner-screen click handlers.

Conventions of the embedding:
* a Python board cell (`None` / `'X'` / `'O'`) is `Option Mark`;
* the `3×3` board (a Python list of three row lists) is
  `List (List Cell)`, accessed with `getD` defaults exactly where the
  Python code would raise (the code never indexes out of range on the
  states the claims quantify over, expressed by the `WF` predicate);
* Python floats (`time.time()`, normalized coordinates, `move_delay`)
  are embedded as rationals;
* `random.choice(lst)` is embedded by passing an arbitrary index
  `k : Nat` and selecting `lst[k % lst.length]?`, so theorems quantify
  over every outcome the Python randomness could produce;
* methods mutating `self` become functions `GameState → GameState`.
-/

namespace FirstApp

/-- The two marks `'X'` and `'O'` of `firstapp.py`. -/
inductive Mark where
  | X : Mark
  | O : Mark
deriving DecidableEq, Repr

/-- A board cell: `None`, `'X'` or `'O'` (`self.board[i][j]`). -/
abbrev Cell := Option Mark

/-- The board `self.board`, a list of three rows of three cells. -/
abbrev Board := List (List Cell)

/-- Read `self.board[i][j]` (defaulting to `None` out of range). -/
def getCell (b : Board) (i j : Nat) : Cell :=
  (b.getD i []).getD j none

/-- Write `self.board[i][j] = v`. -/
def setCell (b : Board) (i j : Nat) (v : Cell) : Board :=
  b.set i ((b.getD i []).set j v)

/-- The fresh board `[[None]*3]*3` built in `__init__` / `reset_game`. -/
def initBoard : Board :=
  [[none, none, none], [none, none, none], [none, none, none]]

/-- Well-formedness: the board really is a 3×3 grid, as every board the
program ever builds is. -/
def WF (b : Board) : Prop :=
  ∃ c00 c01 c02 c10 c11 c12 c20 c21 c22 : Cell,
    b = [[c00, c01, c02], [c10, c11, c12], [c20, c21, c22]]

/-- Row check of `check_winner`: Python's chained comparison
`board[i][0] == board[i][1] == board[i][2] is not None` returning
`board[i][0]` on success. -/
def rowWin (b : Board) (i : Nat) : Option Mark :=
  if getCell b i 0 = getCell b i 1 ∧ getCell b i 1 = getCell b i 2 ∧
      (getCell b i 2).isSome then
    getCell b i 0
  else none

/-- Column check of `check_winner`. -/
def colWin (b : Board) (i : Nat) : Option Mark :=
  if getCell b 0 i = getCell b 1 i ∧ getCell b 1 i = getCell b 2 i ∧
      (getCell b 2 i).isSome then
    getCell b 0 i
  else none

/-- Main-diagonal check of `check_winner`. -/
def diagWin1 (b : Board) : Option Mark :=
  if getCell b 0 0 = getCell b 1 1 ∧ getCell b 1 1 = getCell b 2 2 ∧
      (getCell b 2 2).isSome then
    getCell b 0 0
  else none

/-- Anti-diagonal check of `check_winner`. -/
def diagWin2 (b : Board) : Option Mark :=
  if getCell b 0 2 = getCell b 1 1 ∧ getCell b 1 1 = getCell b 2 0 ∧
      (getCell b 2 0).isSome then
    getCell b 0 2
  else none

/-- `TicTacToe.check_winner`: scan the three rows, then the three
columns, then the two diagonals, returning the mark of the first
complete line (the Python `for` loops with early `return`). -/
def check_winner (b : Board) : Option Mark :=
  match (List.range 3).findSome? (fun i => rowWin b i) with
  | some m => some m
  | none =>
    match (List.range 3).findSome? (fun i => colWin b i) with
    | some m => some m
    | none =>
      match diagWin1 b with
      | some m => some m
      | none => diagWin2 b

/-- `TicTacToe.is_board_full`:
`all(all(cell is not None for cell in row) for row in self.board)`. -/
def is_board_full (b : Board) : Bool :=
  b.all (fun row => row.all (fun cell => cell.isSome))

/-- The rows, columns and diagonals in the exact order `check_winner`
scans them, each as a triple of `(row, col)` positions. -/
def scanLines : List ((Nat × Nat) × (Nat × Nat) × (Nat × Nat)) :=
  [((0, 0), (0, 1), (0, 2)),
   ((1, 0), (1, 1), (1, 2)),
   ((2, 0), (2, 1), (2, 2)),
   ((0, 0), (1, 0), (2, 0)),
   ((0, 1), (1, 1), (2, 1)),
   ((0, 2), (1, 2), (2, 2)),
   ((0, 0), (1, 1), (2, 2)),
   ((0, 2), (1, 1), (2, 0))]

/-- Spec-side reading of one line (§4.2 of the spec): three equal
non-Empty cells yield the common mark. -/
def lineWinner (b : Board) (l : (Nat × Nat) × (Nat × Nat) × (Nat × Nat)) :
    Option Mark :=
  let p := l.1
  let q := l.2.1
  let r := l.2.2
  if getCell b p.1 p.2 = getCell b q.1 q.2 ∧
      getCell b q.1 q.2 = getCell b r.1 r.2 ∧
      getCell b p.1 p.2 ≠ none then
    getCell b p.1 p.2
  else none

/-- The match result of §4.2 of the spec. -/
inductive MatchResult where
  | noResult : MatchResult
  | win : Mark → MatchResult
  | draw : MatchResult
deriving DecidableEq, Repr

/-- The evaluator as the program computes it: `check_winner` decides a
win, and `handle_click` / `update_score` classify a full winnerless
board as a draw. -/
def evaluate (b : Board) : MatchResult :=
  match check_winner b with
  | some m => .win m
  | none => if is_board_full b then .draw else .noResult

/-- The evaluator as §4.2 of the spec words it: the first complete
line in rows→columns→diagonals order wins; otherwise a full board is a
draw and anything else is no result. -/
def specEvaluate (b : Board) : MatchResult :=
  match scanLines.findSome? (fun l => lineWinner b l) with
  | some m => .win m
  | none => if is_board_full b then .draw else .noResult

/-- The row-major cell scan order of the nested
`for i in range(3): for j in range(3)` loops. -/
def cellsRM : List (Nat × Nat) :=
  (List.range 3).flatMap (fun i => (List.range 3).map (fun j => (i, j)))

/-- Loop body of `find_winning_move`, threading the mutated board: each
empty cell receives the hypothetical mark, `check_winner` is consulted,
and the cell is put back to `None` before returning or continuing. -/
def fwmGo (p : Cell) : Board → List (Nat × Nat) → Board × Option (Nat × Nat)
  | b, [] => (b, none)
  | b, (i, j) :: rest =>
    if getCell b i j = none then
      let b1 := setCell b i j p
      if check_winner b1 = p then (setCell b1 i j none, some (i, j))
      else fwmGo p (setCell b1 i j none) rest
    else fwmGo p b rest

/-- `TicTacToe.find_winning_move(player)`: the first cell (row-major)
whose hypothetical occupation by `p` makes `check_winner() == p`,
together with the board as the mutate-and-restore loop leaves it. -/
def find_winning_move (b : Board) (p : Cell) : Board × Option (Nat × Nat) :=
  fwmGo p b cellsRM

/-- The corner list of `computer_move`. -/
def cornersList : List (Nat × Nat) := [(0, 0), (0, 2), (2, 0), (2, 2)]

/-- The edge list of `computer_move`. -/
def edgesList : List (Nat × Nat) := [(0, 1), (1, 0), (1, 2), (2, 1)]

/-- `TicTacToe.computer_move`: try a winning move, then a block, then
the center, then a random empty corner, then a random empty edge.
Returns the board after the move together with `last_computer_move`
(`none` standing for the `(-1, -1)` sentinel and a `False` return).
`random.choice` is embedded by the index parameter `k`. -/
def computer_move (k : Nat) (b : Board) (comp player : Cell) :
    Board × Option (Nat × Nat) :=
  let r1 := find_winning_move b comp
  match r1.2 with
  | some (i, j) => (setCell r1.1 i j comp, some (i, j))
  | none =>
    let r2 := find_winning_move r1.1 player
    match r2.2 with
    | some (i, j) => (setCell r2.1 i j comp, some (i, j))
    | none =>
      if getCell r2.1 1 1 = none then (setCell r2.1 1 1 comp, some (1, 1))
      else
        let empty_corners :=
          cornersList.filter (fun c => getCell r2.1 c.1 c.2 = none)
        match empty_corners[k % empty_corners.length]? with
        | some (i, j) => (setCell r2.1 i j comp, some (i, j))
        | none =>
          let empty_edges :=
            edgesList.filter (fun c => getCell r2.1 c.1 c.2 = none)
          match empty_edges[k % empty_edges.length]? with
          | some (i, j) => (setCell r2.1 i j comp, some (i, j))
          | none => (r2.1, none)

/-- Python `int()` on a rational: truncation toward zero. -/
def pyInt (q : ℚ) : ℤ :=
  if q < 0 then ⌈q⌉ else ⌊q⌋

/-- `TicTacToe.get_cell`: map normalized coordinates to `(row, col)`
through `board = (coord + 1) * 1.5`, with `(-1, -1)` as the "no cell"
sentinel. -/
def get_cell (x_pos y_pos : ℚ) : ℤ × ℤ :=
  let board_x := (x_pos + 1) * (3 / 2)
  let board_y := (y_pos + 1) * (3 / 2)
  if board_x < 0 ∨ board_x > 3 ∨ board_y < 0 ∨ board_y > 3 then (-1, -1)
  else
    let col := pyInt board_x
    let row := pyInt board_y
    if row < 0 ∨ row > 2 ∨ col < 0 ∨ col > 2 then (-1, -1)
    else (row, col)

/-- A recorded move `(row, col, symbol)` as appended to
`self.move_history`. -/
abbrev Move := Nat × Nat × Cell

/-- The game-logic fields of the `TicTacToe` object (presentation-only
fields — colors, particle/cursor state, FPS counters — are outside the
claims and omitted). `last_computer_move = none` stands for the
`(-1, -1)` sentinel; the `score` dict becomes three counters. -/
structure GameState where
  board : Board
  current_player : Bool
  game_over : Bool
  winner : Option Mark
  in_menu : Bool
  show_winner_screen : Bool
  fade_alpha : ℚ
  player_symbol : Cell
  computer_symbol : Cell
  move_history : List Move
  score_player : Nat
  score_computer : Nat
  score_draws : Nat
  last_move_time : ℚ
  move_delay : ℚ
  last_computer_move : Option (Nat × Nat)
deriving DecidableEq, Repr

/-- The game-state fields as `__init__` sets them
(`move_delay = 0.3`, `last_move_time = 0.0`). -/
def initState : GameState where
  board := initBoard
  current_player := true
  game_over := false
  winner := none
  in_menu := true
  show_winner_screen := false
  fade_alpha := 0
  player_symbol := none
  computer_symbol := none
  move_history := []
  score_player := 0
  score_computer := 0
  score_draws := 0
  last_move_time := 0
  move_delay := 3 / 10
  last_computer_move := none

/-- `TicTacToe.update_score`: compare `self.winner` against the two
symbols (Python `==`, so `None == None` counts for the first matching
branch), falling back to a draw tally when the game is over. -/
def update_score (s : GameState) : GameState :=
  if s.winner = s.player_symbol then
    { s with score_player := s.score_player + 1 }
  else if s.winner = s.computer_symbol then
    { s with score_computer := s.score_computer + 1 }
  else if s.game_over then
    { s with score_draws := s.score_draws + 1 }
  else s

/-- One `self.move_history.pop()` with the popped cell forced back to
`None`, as the undo loop body does. -/
def popMove : Board × List Move → Board × List Move
  | (b, h) =>
    match h.getLast? with
    | some (r, c, _) => (setCell b r c none, h.dropLast)
    | none => (b, h)

/-- `TicTacToe.undo_last_move`: when at least two moves are recorded,
pop the last two (clearing their cells, newest first) and hand the turn
back to the player, clearing the game-over/winner/winner-screen flags;
otherwise do nothing. -/
def undo_last_move (s : GameState) : GameState :=
  if s.move_history.length ≥ 2 then
    let p1 := popMove (s.board, s.move_history)
    let p2 := popMove p1
    { s with
      board := p2.1
      move_history := p2.2
      game_over := false
      winner := none
      show_winner_screen := false
      current_player := true }
  else s

/-- `TicTacToe.reset_game`: fresh board, player's turn, back to the
menu, symbols and history cleared — and the score dict rebuilt at zero.
The trailing `if not self.current_player and not self.in_menu` branch
of the source is kept literally; it can never fire because the lines
above it just set `current_player = True` and `in_menu = True`. -/
def reset_game (k : Nat) (s : GameState) : GameState :=
  let s1 : GameState :=
    { s with
      board := initBoard
      current_player := true
      game_over := false
      winner := none
      in_menu := true
      show_winner_screen := false
      fade_alpha := 0
      player_symbol := none
      computer_symbol := none
      move_history := []
      score_player := 0
      score_computer := 0
      score_draws := 0
      last_computer_move := none }
  if ¬s1.current_player ∧ ¬s1.in_menu then
    let r := computer_move k s1.board s1.computer_symbol s1.player_symbol
    { s1 with board := r.1, last_computer_move := r.2, current_player := false }
  else s1

/-- `TicTacToe.is_point_in_rect`. -/
def is_point_in_rect (px py x y w h : ℚ) : Bool :=
  decide (x ≤ px ∧ px ≤ x + w ∧ y ≤ py ∧ py ≤ y + h)

/-- `TicTacToe.handle_winner_screen_click`: ignore clicks until the
winner screen is shown and faded in past `0.7`; the restart button
rect is `(-0.4, -0.3, 0.3, 0.1)` and the menu button rect is
`(0.1, -0.3, 0.3, 0.1)`, both resetting the game (the menu button
additionally sets `in_menu`, which `reset_game` sets anyway). -/
def handle_winner_screen_click (k : Nat) (x_pos y_pos : ℚ) (s : GameState) :
    GameState :=
  if ¬s.show_winner_screen ∨ s.fade_alpha < 7 / 10 then s
  else if is_point_in_rect x_pos y_pos (-(2 / 5)) (-(3 / 10)) (3 / 10) (1 / 10) then
    reset_game k { s with fade_alpha := 0 }
  else if is_point_in_rect x_pos y_pos (1 / 10) (-(3 / 10)) (3 / 10) (1 / 10) then
    reset_game k { s with fade_alpha := 0, in_menu := true }
  else s

/-- `TicTacToe.handle_click`: reject when the game is over or it is not
the player's turn; reject clicks outside the grid; reject clicks closer
than `move_delay` to the last accepted one; place the player's symbol
on an empty cell, record it, and either conclude the round or run the
computer's reply (recording it and possibly concluding), ending with
the turn back at the player. -/
def handle_click (k : Nat) (t x_pos y_pos : ℚ) (s : GameState) : GameState :=
  if s.game_over ∨ ¬s.current_player then s
  else
    let rc := get_cell x_pos y_pos
    if rc.1 < 0 ∨ rc.1 > 2 ∨ rc.2 < 0 ∨ rc.2 > 2 then s
    else if t - s.last_move_time < s.move_delay then s
    else
      let row := rc.1.toNat
      let col := rc.2.toNat
      if getCell s.board row col = none then
        let b1 := setCell s.board row col s.player_symbol
        let h1 := s.move_history ++ [(row, col, s.player_symbol)]
        let w1 := check_winner b1
        let s1 : GameState :=
          { s with
            board := b1
            move_history := h1
            last_move_time := t
            winner := w1 }
        if w1.isSome ∨ is_board_full b1 then
          update_score
            { s1 with game_over := true, show_winner_screen := true,
                      fade_alpha := 0 }
        else
          let s2 := { s1 with current_player := false }
          let r := computer_move k s2.board s2.computer_symbol s2.player_symbol
          match r.2 with
          | some (cr, cc) =>
            let s3 : GameState :=
              { s2 with
                board := r.1
                last_computer_move := some (cr, cc)
                move_history := s2.move_history ++ [(cr, cc, s2.computer_symbol)]
                winner := check_winner r.1 }
            if (check_winner r.1).isSome ∨ is_board_full r.1 then
              update_score
                { s3 with game_over := true, show_winner_screen := true,
                          fade_alpha := 0, current_player := true }
            else { s3 with current_player := true }
          | none =>
            { s2 with board := r.1, last_computer_move := none,
                      current_player := true }
      else s

/-- The menu button rectangles of `__init__` in dict-insertion order
(`button_width = 0.4`, `button_height = 0.18`, `button_spacing = 0.06`,
`menu_y = 0.6`): `play_x`, `play_o`, then the four color buttons. -/
def menuButtons : List (String × (ℚ × ℚ × ℚ × ℚ)) :=
  [("play_x", (3 / 10, 3 / 5, 2 / 5, 9 / 50)),
   ("play_o", (3 / 10, 3 / 5 - 9 / 50 - 3 / 50, 2 / 5, 9 / 50)),
   ("color_red", (3 / 10, 3 / 5 - 2 * (9 / 50 + 3 / 50), 2 / 5, 9 / 50)),
   ("color_blue", (3 / 10, 3 / 5 - 3 * (9 / 50 + 3 / 50), 2 / 5, 9 / 50)),
   ("color_green", (3 / 10, 3 / 5 - 4 * (9 / 50 + 3 / 50), 2 / 5, 9 / 50)),
   ("color_purple", (3 / 10, 3 / 5 - 5 * (9 / 50 + 3 / 50), 2 / 5, 9 / 50))]

/-- `TicTacToe.handle_menu_click`: act on the first button whose rect
contains the click (the loop `break`s after a hit). `play_x` starts a
round with the player as `X`; `play_o` assigns the symbols, marks the
computer as current and runs `computer_move` once; the color buttons
only change presentation colors (outside the modeled state). -/
def handle_menu_click (k : Nat) (x_pos y_pos : ℚ) (s : GameState) : GameState :=
  match menuButtons.find?
      (fun btn =>
        is_point_in_rect x_pos y_pos btn.2.1 btn.2.2.1 btn.2.2.2.1 btn.2.2.2.2) with
  | some btn =>
    if btn.1 = "play_x" then
      { s with player_symbol := some .X, computer_symbol := some .O,
               current_player := true, in_menu := false }
    else if btn.1 = "play_o" then
      let s1 : GameState :=
        { s with player_symbol := some .O, computer_symbol := some .X,
                 current_player := false, in_menu := false }
      let r := computer_move k s1.board s1.computer_symbol s1.player_symbol
      { s1 with board := r.1, last_computer_move := r.2 }
    else s
  | none => s

/-- A concluded round: the player `X` has completed the top row
(moves `X(0,0) O(1,0) X(0,1) O(1,1) X(0,2)`), the winner screen is up
and fully faded in, and the scoreboard shows one player win. -/
def wonState : GameState where
  board := [[some .X, some .X, some .X], [some .O, some .O, none],
            [none, none, none]]
  current_player := true
  game_over := true
  winner := some .X
  in_menu := false
  show_winner_screen := true
  fade_alpha := 1
  player_symbol := some .X
  computer_symbol := some .O
  move_history := [(0, 0, some .X), (1, 0, some .O), (0, 1, some .X),
                   (1, 1, some .O), (0, 2, some .X)]
  score_player := 1
  score_computer := 0
  score_draws := 0
  last_move_time := 5
  move_delay := 3 / 10
  last_computer_move := some (1, 1)

/-- A round in progress after one player move `X(0,0)` and the
computer's center reply `O(1,1)`, player to move. -/
def twoMoveState : GameState where
  board := [[some .X, none, none], [none, some .O, none], [none, none, none]]
  current_player := true
  game_over := false
  winner := none
  in_menu := false
  show_winner_screen := false
  fade_alpha := 0
  player_symbol := some .X
  computer_symbol := some .O
  move_history := [(0, 0, some .X), (1, 1, some .O)]
  score_player := 0
  score_computer := 0
  score_draws := 0
  last_move_time := 1
  move_delay := 3 / 10
  last_computer_move := some (1, 1)

/-- A fresh round with the player as `X`, empty board, about to make
the first move. -/
def playState : GameState :=
  { twoMoveState with
    board := initBoard
    move_history := []
    last_move_time := 0
    last_computer_move := none }

/-! ### Board lemmas -/

lemma WF_initBoard : WF initBoard :=
  ⟨none, none, none, none, none, none, none, none, none, rfl⟩

lemma cellsRM_eq :
    cellsRM = [(0, 0), (0, 1), (0, 2), (1, 0), (1, 1), (1, 2),
               (2, 0), (2, 1), (2, 2)] := rfl

lemma WF_setCell {b : Board} (hwf : WF b) {i j : Nat}
    (hi : i < 3) (hj : j < 3) (v : Cell) : WF (setCell b i j v) := by
  obtain ⟨c00, c01, c02, c10, c11, c12, c20, c21, c22, rfl⟩ := hwf
  interval_cases i <;> interval_cases j <;>
    exact ⟨_, _, _, _, _, _, _, _, _, rfl⟩

lemma getCell_setCell_same {b : Board} (hwf : WF b) {i j : Nat}
    (hi : i < 3) (hj : j < 3) (v : Cell) :
    getCell (setCell b i j v) i j = v := by
  obtain ⟨c00, c01, c02, c10, c11, c12, c20, c21, c22, rfl⟩ := hwf
  interval_cases i <;> interval_cases j <;> rfl

lemma getCell_setCell_other {b : Board} (hwf : WF b) {i j i' j' : Nat}
    (hi : i < 3) (hj : j < 3) (hi' : i' < 3) (hj' : j' < 3)
    (hne : (i, j) ≠ (i', j')) (v : Cell) :
    getCell (setCell b i j v) i' j' = getCell b i' j' := by
  obtain ⟨c00, c01, c02, c10, c11, c12, c20, c21, c22, rfl⟩ := hwf
  interval_cases i <;> interval_cases j <;> interval_cases i' <;>
    interval_cases j' <;> first | rfl | simp_all

lemma setCell_self {b : Board} (hwf : WF b) {i j : Nat}
    (hi : i < 3) (hj : j < 3) {v : Cell} (h : getCell b i j = v) :
    setCell b i j v = b := by
  obtain ⟨c00, c01, c02, c10, c11, c12, c20, c21, c22, rfl⟩ := hwf
  interval_cases i <;> interval_cases j <;>
    (simp only [getCell, List.getD] at h; subst h; rfl)

lemma setCell_restore {b : Board} (hwf : WF b) {i j : Nat}
    (hi : i < 3) (hj : j < 3) (h : getCell b i j = none) (v : Cell) :
    setCell (setCell b i j v) i j none = b := by
  obtain ⟨c00, c01, c02, c10, c11, c12, c20, c21, c22, rfl⟩ := hwf
  interval_cases i <;> interval_cases j <;>
    (simp only [getCell, List.getD] at h; subst h; rfl)

lemma is_board_full_iff {b : Board} (hwf : WF b) :
    is_board_full b = true ↔ ∀ c ∈ cellsRM, getCell b c.1 c.2 ≠ none := by
  obtain ⟨c00, c01, c02, c10, c11, c12, c20, c21, c22, rfl⟩ := hwf
  simp [is_board_full, cellsRM_eq, getCell, List.getD,
    List.getElem?_cons_zero, List.getElem?_cons_succ,
    Option.isSome_iff_ne_none]
  tauto

/-! ### The evaluator scans rows, columns, then diagonals (C4) -/

lemma rowWin_eq (b : Board) (i : Nat) :
    rowWin b i = lineWinner b ((i, 0), (i, 1), (i, 2)) := by
  unfold rowWin lineWinner
  split_ifs <;> simp_all [Option.isSome_iff_ne_none]

lemma colWin_eq (b : Board) (i : Nat) :
    colWin b i = lineWinner b ((0, i), (1, i), (2, i)) := by
  unfold colWin lineWinner
  split_ifs <;> simp_all [Option.isSome_iff_ne_none]

lemma diagWin1_eq (b : Board) :
    diagWin1 b = lineWinner b ((0, 0), (1, 1), (2, 2)) := by
  unfold diagWin1 lineWinner
  split_ifs <;> simp_all [Option.isSome_iff_ne_none]

lemma diagWin2_eq (b : Board) :
    diagWin2 b = lineWinner b ((0, 2), (1, 1), (2, 0)) := by
  unfold diagWin2 lineWinner
  split_ifs <;> simp_all [Option.isSome_iff_ne_none]

lemma check_winner_eq_scan (b : Board) :
    check_winner b = scanLines.findSome? (fun l => lineWinner b l) := by
  unfold check_winner scanLines
  rw [show (List.range 3) = [0, 1, 2] from rfl]
  simp only [List.findSome?_cons, List.findSome?_nil]
  rw [rowWin_eq b 0, rowWin_eq b 1, rowWin_eq b 2,
    colWin_eq b 0, colWin_eq b 1, colWin_eq b 2, diagWin1_eq b, diagWin2_eq b]
  cases lineWinner b ((0, 0), (0, 1), (0, 2)) <;>
    cases lineWinner b ((1, 0), (1, 1), (1, 2)) <;>
    cases lineWinner b ((2, 0), (2, 1), (2, 2)) <;>
    cases lineWinner b ((0, 0), (1, 0), (2, 0)) <;>
    cases lineWinner b ((0, 1), (1, 1), (2, 1)) <;>
    cases lineWinner b ((0, 2), (1, 2), (2, 2)) <;>
    cases lineWinner b ((0, 0), (1, 1), (2, 2)) <;>
    cases lineWinner b ((0, 2), (1, 1), (2, 0)) <;> rfl

/-! ### The winning-move search (C5) -/

lemma fwmGo_spec (p : Cell) (l : List (Nat × Nat)) :
    ∀ b : Board, WF b → (∀ c ∈ l, c.1 < 3 ∧ c.2 < 3) →
      (fwmGo p b l).1 = b ∧
      (fwmGo p b l).2 =
        l.find? (fun c =>
          decide (getCell b c.1 c.2 = none ∧
            check_winner (setCell b c.1 c.2 p) = p)) := by
  induction l with
  | nil => intro b _ _; simp [fwmGo]
  | cons c rest ih =>
    intro b hwf hin
    obtain ⟨i, j⟩ := c
    obtain ⟨hi3, hj3⟩ := hin (i, j) (List.mem_cons_self _ _)
    have hintail : ∀ c ∈ rest, c.1 < 3 ∧ c.2 < 3 :=
      fun c hc => hin c (List.mem_cons_of_mem _ hc)
    by_cases hemp : getCell b i j = none
    · have hres : setCell (setCell b i j p) i j none = b :=
        setCell_restore hwf hi3 hj3 hemp p
      by_cases hwin : check_winner (setCell b i j p) = p
      · constructor
        · simp [fwmGo, hemp, hwin, hres]
        · rw [List.find?_cons_of_pos]
          · simp [fwmGo, hemp, hwin]
          · simp [hemp, hwin]
      · have ihb := ih b hwf hintail
        constructor
        · simp only [fwmGo, if_pos hemp, if_neg hwin]
          rw [hres]
          exact ihb.1
        · rw [List.find?_cons_of_neg]
          · simp only [fwmGo, if_pos hemp, if_neg hwin]
            rw [hres]
            exact ihb.2
          · simp [hemp, hwin]
    · have ihb := ih b hwf hintail
      constructor
      · simp only [fwmGo, if_neg hemp]
        exact ihb.1
      · rw [List.find?_cons_of_neg]
        · simp only [fwmGo, if_neg hemp]
          exact ihb.2
        · simp [hemp]

lemma cellsRM_bounds : ∀ c ∈ cellsRM, c.1 < 3 ∧ c.2 < 3 := by decide

lemma find_winning_move_spec (b : Board) (p : Cell) (hwf : WF b) :
    (find_winning_move b p).1 = b ∧
    (find_winning_move b p).2 =
      cellsRM.find? (fun c =>
        decide (getCell b c.1 c.2 = none ∧
          check_winner (setCell b c.1 c.2 p) = p)) :=
  fwmGo_spec p cellsRM b hwf cellsRM_bounds

/-! ### The full heuristic chain (C6, C10) -/

lemma computer_move_eq (k : Nat) (b : Board) (comp player : Cell)
    (hwf : WF b) :
    computer_move k b comp player =
      match cellsRM.find? (fun c =>
          decide (getCell b c.1 c.2 = none ∧
            check_winner (setCell b c.1 c.2 comp) = comp)) with
      | some (i, j) => (setCell b i j comp, some (i, j))
      | none =>
        match cellsRM.find? (fun c =>
            decide (getCell b c.1 c.2 = none ∧
              check_winner (setCell b c.1 c.2 player) = player)) with
        | some (i, j) => (setCell b i j comp, some (i, j))
        | none =>
          if getCell b 1 1 = none then (setCell b 1 1 comp, some (1, 1))
          else
            match (cornersList.filter (fun c => getCell b c.1 c.2 = none))[k %
                (cornersList.filter (fun c => getCell b c.1 c.2 = none)).length]? with
            | some (i, j) => (setCell b i j comp, some (i, j))
            | none =>
              match (edgesList.filter (fun c => getCell b c.1 c.2 = none))[k %
                  (edgesList.filter (fun c => getCell b c.1 c.2 = none)).length]? with
              | some (i, j) => (setCell b i j comp, some (i, j))
              | none => (b, none) := by
  obtain ⟨hb1, hf1⟩ := find_winning_move_spec b comp hwf
  obtain ⟨hb2, hf2⟩ := find_winning_move_spec b player hwf
  simp only [computer_move, hb1, hf1, hb2, hf2]

lemma cornersList_sub : ∀ c ∈ cornersList, c ∈ cellsRM := by decide

lemma edgesList_sub : ∀ c ∈ edgesList, c ∈ cellsRM := by decide

lemma computer_move_some (k : Nat) (b : Board) (comp player : Cell)
    (hwf : WF b) (r c : Nat)
    (h : (computer_move k b comp player).2 = some (r, c)) :
    (r, c) ∈ cellsRM ∧ getCell b r c = none ∧
      (computer_move k b comp player).1 = setCell b r c comp := by
  rw [computer_move_eq k b comp player hwf] at h ⊢
  split at h
  next i j heq =>
    simp only [Option.some.injEq, Prod.mk.injEq] at h
    obtain ⟨rfl, rfl⟩ := h
    have hp := List.find?_some heq
    have hm := List.mem_of_find?_eq_some heq
    simp only [decide_eq_true_eq] at hp
    exact ⟨hm, hp.1, rfl⟩
  next heq1 =>
    split at h
    next i j heq =>
      simp only [Option.some.injEq, Prod.mk.injEq] at h
      obtain ⟨rfl, rfl⟩ := h
      have hp := List.find?_some heq
      have hm := List.mem_of_find?_eq_some heq
      simp only [decide_eq_true_eq] at hp
      exact ⟨hm, hp.1, rfl⟩
    next heq2 =>
      split at h
      next hcen =>
        rw [if_pos hcen]
        simp only [Option.some.injEq, Prod.mk.injEq] at h
        obtain ⟨rfl, rfl⟩ := h
        exact ⟨by decide, hcen, rfl⟩
      next hcen =>
        rw [if_neg hcen]
        split at h
        next i j heq =>
          simp only [Option.some.injEq, Prod.mk.injEq] at h
          obtain ⟨rfl, rfl⟩ := h
          have hm := List.getElem?_mem heq
          rw [List.mem_filter] at hm
          refine ⟨cornersList_sub _ hm.1, ?_, rfl⟩
          simpa using hm.2
        next heq3 =>
          split at h
          next i j heq =>
            simp only [Option.some.injEq, Prod.mk.injEq] at h
            obtain ⟨rfl, rfl⟩ := h
            have hm := List.getElem?_mem heq
            rw [List.mem_filter] at hm
            refine ⟨edgesList_sub _ hm.1, ?_, rfl⟩
            simpa using hm.2
          next heq4 =>
            simp at h

lemma computer_move_none (k : Nat) (b : Board) (comp player : Cell)
    (hwf : WF b) (h : (computer_move k b comp player).2 = none) :
    is_board_full b = true := by
  rw [computer_move_eq k b comp player hwf] at h
  split at h
  next i j heq => simp at h
  next heq1 =>
    split at h
    next i j heq => simp at h
    next heq2 =>
      split at h
      next hcen => simp at h
      next hcen =>
        split at h
        next i j heq => simp at h
        next heq3 =>
          split at h
          next i j heq => simp at h
          next heq4 =>
            have hcorn :
                cornersList.filter (fun c => getCell b c.1 c.2 = none) = [] := by
              by_contra hne
              have hlen := List.length_pos.mpr hne
              have hmod := Nat.mod_lt k hlen
              have := List.getElem?_eq_none_iff.mp heq3
              omega
            have hedge :
                edgesList.filter (fun c => getCell b c.1 c.2 = none) = [] := by
              by_contra hne
              have hlen := List.length_pos.mpr hne
              have hmod := Nat.mod_lt k hlen
              have := List.getElem?_eq_none_iff.mp heq4
              omega
            simp only [List.filter_eq_nil_iff] at hcorn hedge
            rw [is_board_full_iff hwf]
            intro a ha
            rw [cellsRM_eq] at ha
            simp only [List.mem_cons, List.not_mem_nil, or_false] at ha
            rcases ha with rfl | rfl | rfl | rfl | rfl | rfl | rfl | rfl | rfl
            · simpa using hcorn (0, 0) (by decide)
            · simpa using hedge (0, 1) (by decide)
            · simpa using hcorn (0, 2) (by decide)
            · simpa using hedge (1, 0) (by decide)
            · exact hcen
            · simpa using hedge (1, 2) (by decide)
            · simpa using hcorn (2, 0) (by decide)
            · simpa using hedge (2, 1) (by decide)
            · simpa using hcorn (2, 2) (by decide)

/-! ### Claim theorems -/

/-- C4: for every board the evaluator checks the 3 rows, then the 3
columns, then the 2 diagonals for three equal non-Empty cells and
returns the win of the mark on the first such line found; with no
complete line it returns a draw exactly when the board is full and no
result otherwise. -/
theorem claim_C4_evaluator_scan (b : Board) : evaluate b = specEvaluate b := by
  unfold evaluate specEvaluate
  rw [check_winner_eq_scan]

/-- C5: on every board with an empty cell whose hypothetical occupation
wins for the opponent, `find_winning_move` returns the first such cell
in row-major scan order (the `find?` over `cellsRM`), the speculative
search leaves the board exactly as it was, and `computer_move` then
plays exactly that cell. -/
theorem claim_C5_winning_move (k : Nat) (b : Board) (comp player : Cell)
    (hwf : WF b)
    (hex : ∃ c ∈ cellsRM, getCell b c.1 c.2 = none ∧
      check_winner (setCell b c.1 c.2 comp) = comp) :
    (find_winning_move b comp).1 = b ∧
    (find_winning_move b comp).2 =
      cellsRM.find? (fun c =>
        decide (getCell b c.1 c.2 = none ∧
          check_winner (setCell b c.1 c.2 comp) = comp)) ∧
    ((find_winning_move b comp).2).isSome = true ∧
    ∀ i j, (find_winning_move b comp).2 = some (i, j) →
      (computer_move k b comp player).2 = some (i, j) ∧
      (computer_move k b comp player).1 = setCell b i j comp := by
  obtain ⟨hb, hf⟩ := find_winning_move_spec b comp hwf
  refine ⟨hb, hf, ?_, ?_⟩
  · rw [hf, List.find?_isSome]
    obtain ⟨c, hc, h1, h2⟩ := hex
    exact ⟨c, hc, by simp [h1, h2]⟩
  · intro i j hij
    rw [computer_move_eq k b comp player hwf, ← hf, hij]
    exact ⟨rfl, rfl⟩

/-- Witness for C5: on `X X · / · · · / · · ·` with the opponent
playing `X`, the search returns `(0, 2)`, restores the board, and the
heuristic plays `(0, 2)`. -/
theorem claim_C5_winning_move_witness :
    WF [[some .X, some .X, none], [none, none, none], [none, none, none]] ∧
    (∃ c ∈ cellsRM,
      getCell [[some .X, some .X, none], [none, none, none],
        [none, none, none]] c.1 c.2 = none ∧
      check_winner (setCell [[some .X, some .X, none], [none, none, none],
        [none, none, none]] c.1 c.2 (some .X)) = some .X) ∧
    ((find_winning_move [[some .X, some .X, none], [none, none, none],
        [none, none, none]] (some .X)).1 =
      [[some .X, some .X, none], [none, none, none], [none, none, none]] ∧
    (find_winning_move [[some .X, some .X, none], [none, none, none],
        [none, none, none]] (some .X)).2 =
      cellsRM.find? (fun c =>
        decide (getCell [[some .X, some .X, none], [none, none, none],
            [none, none, none]] c.1 c.2 = none ∧
          check_winner (setCell [[some .X, some .X, none], [none, none, none],
            [none, none, none]] c.1 c.2 (some .X)) = some .X)) ∧
    ((find_winning_move [[some .X, some .X, none], [none, none, none],
        [none, none, none]] (some .X)).2).isSome = true ∧
    ∀ i j, (find_winning_move [[some .X, some .X, none], [none, none, none],
        [none, none, none]] (some .X)).2 = some (i, j) →
      (computer_move 0 [[some .X, some .X, none], [none, none, none],
          [none, none, none]] (some .X) (some .O)).2 = some (i, j) ∧
      (computer_move 0 [[some .X, some .X, none], [none, none, none],
          [none, none, none]] (some .X) (some .O)).1 =
        setCell [[some .X, some .X, none], [none, none, none],
          [none, none, none]] i j (some .X)) :=
  ⟨⟨some .X, some .X, none, none, none, none, none, none, none, rfl⟩,
   by decide,
   claim_C5_winning_move 0 _ (some .X) (some .O)
     ⟨some .X, some .X, none, none, none, none, none, none, none, rfl⟩
     (by decide)⟩

/-- C6: on every board that is not full the heuristic selects some
cell that was empty beforehand and reports success; it reports failure
only when no empty cell remains. -/
theorem claim_C6_heuristic_total (k : Nat) (b : Board) (comp player : Cell)
    (hwf : WF b) :
    (is_board_full b = false →
      ∃ r c, (computer_move k b comp player).2 = some (r, c) ∧
        getCell b r c = none) ∧
    ((computer_move k b comp player).2 = none → is_board_full b = true) := by
  constructor
  · intro hnf
    cases hcm : (computer_move k b comp player).2 with
    | none =>
      rw [computer_move_none k b comp player hwf hcm] at hnf
      cases hnf
    | some a =>
      obtain ⟨r, c⟩ := a
      obtain ⟨_, hemp, _⟩ := computer_move_some k b comp player hwf r c hcm
      exact ⟨r, c, rfl, hemp⟩
  · exact computer_move_none k b comp player hwf

/-- Witness for C6: the empty board is not full and the heuristic
(center rule) plays an empty cell on it. -/
theorem claim_C6_heuristic_total_witness :
    WF initBoard ∧
    ((is_board_full initBoard = false →
      ∃ r c, (computer_move 0 initBoard (some .O) (some .X)).2 = some (r, c) ∧
        getCell initBoard r c = none) ∧
    ((computer_move 0 initBoard (some .O) (some .X)).2 = none →
      is_board_full initBoard = true)) :=
  ⟨WF_initBoard, claim_C6_heuristic_total 0 initBoard (some .O) (some .X)
    WF_initBoard⟩

/-- C10: whenever the heuristic reports success, the chosen cell went
from empty to the computer's mark and every other in-range cell is
unchanged. -/
theorem claim_C10_frame (k : Nat) (b : Board) (m : Mark) (player : Cell)
    (hwf : WF b) (r c : Nat)
    (h : (computer_move k b (some m) player).2 = some (r, c)) :
    getCell b r c = none ∧
    getCell (computer_move k b (some m) player).1 r c = some m ∧
    (computer_move k b (some m) player).1 = setCell b r c (some m) ∧
    ∀ r' c', r' < 3 → c' < 3 → (r', c') ≠ (r, c) →
      getCell (computer_move k b (some m) player).1 r' c' =
        getCell b r' c' := by
  obtain ⟨hmem, hemp, hbd⟩ := computer_move_some k b (some m) player hwf r c h
  obtain ⟨hr3, hc3⟩ := cellsRM_bounds _ hmem
  rw [hbd]
  exact ⟨hemp, getCell_setCell_same hwf hr3 hc3 _, rfl,
    fun r' c' h1 h2 hne =>
      getCell_setCell_other hwf hr3 hc3 h1 h2 (Ne.symm hne) _⟩

/-- Witness for C10: on the empty board the heuristic plays the center
and every other cell stays empty. -/
theorem claim_C10_frame_witness :
    WF initBoard ∧
    (computer_move 0 initBoard (some .O) (some .X)).2 = some (1, 1) ∧
    (getCell initBoard 1 1 = none ∧
    getCell (computer_move 0 initBoard (some .O) (some .X)).1 1 1 = some .O ∧
    (computer_move 0 initBoard (some .O) (some .X)).1 =
      setCell initBoard 1 1 (some .O) ∧
    ∀ r' c', r' < 3 → c' < 3 → (r', c') ≠ (1, 1) →
      getCell (computer_move 0 initBoard (some .O) (some .X)).1 r' c' =
        getCell initBoard r' c') :=
  ⟨WF_initBoard, by decide,
   claim_C10_frame 0 initBoard .O (some .X) WF_initBoard 1 1 (by decide)⟩

/-- C7: with at least two recorded moves placed on previously empty
distinct cells, undo removes exactly the last two history entries,
clears exactly those two cells (newest first), restores board and
history to their state two moves prior, and returns the turn to the
player. -/
theorem claim_C7_undo_roundtrip (s : GameState) (b0 : Board) (h : List Move)
    (r1 c1 r2 c2 : Nat) (m1 m2 : Cell) (hwf : WF b0)
    (hr1 : r1 < 3) (hc1 : c1 < 3) (hr2 : r2 < 3) (hc2 : c2 < 3)
    (hne : (r1, c1) ≠ (r2, c2))
    (hh : s.move_history = h ++ [(r1, c1, m1), (r2, c2, m2)])
    (hb : s.board = setCell (setCell b0 r1 c1 m1) r2 c2 m2)
    (he1 : getCell b0 r1 c1 = none) (he2 : getCell b0 r2 c2 = none) :
    (undo_last_move s).board = b0 ∧
    (undo_last_move s).move_history = h ∧
    (undo_last_move s).current_player = true := by
  have hsplit : s.move_history = (h ++ [(r1, c1, m1)]) ++ [(r2, c2, m2)] := by
    rw [hh]
    simp
  have hlen : 2 ≤ s.move_history.length := by
    rw [hsplit]
    simp
  have hX : setCell s.board r2 c2 none = setCell b0 r1 c1 m1 := by
    rw [hb]
    exact setCell_restore (WF_setCell hwf hr1 hc1 m1) hr2 hc2
      (by rw [getCell_setCell_other hwf hr1 hc1 hr2 hc2 hne m1]; exact he2) m2
  have hY : setCell (setCell b0 r1 c1 m1) r1 c1 none = b0 :=
    setCell_restore hwf hr1 hc1 he1 m1
  have e1 : popMove (s.board, s.move_history)
      = (setCell s.board r2 c2 none, h ++ [(r1, c1, m1)]) := by
    simp only [popMove, hsplit, List.getLast?_concat, List.dropLast_concat]
  have e2 : popMove (setCell b0 r1 c1 m1, h ++ [(r1, c1, m1)])
      = (setCell (setCell b0 r1 c1 m1) r1 c1 none, h) := by
    simp only [popMove, List.getLast?_concat, List.dropLast_concat]
  simp only [undo_last_move, if_pos hlen, e1, hX, e2, hY]
  exact ⟨trivial, trivial, trivial⟩

/-- Witness for C7: from the empty board after `X(0,0)` and the reply
`O(1,1)`, undo returns board and history to empty with the player to
move. -/
theorem claim_C7_undo_roundtrip_witness :
    WF initBoard ∧
    twoMoveState.move_history = [] ++ [(0, 0, some .X), (1, 1, some .O)] ∧
    twoMoveState.board = setCell (setCell initBoard 0 0 (some .X)) 1 1 (some .O) ∧
    ((undo_last_move twoMoveState).board = initBoard ∧
     (undo_last_move twoMoveState).move_history = [] ∧
     (undo_last_move twoMoveState).current_player = true) :=
  ⟨WF_initBoard, rfl, rfl,
   claim_C7_undo_roundtrip twoMoveState initBoard [] 0 0 1 1 (some .X)
     (some .O) WF_initBoard (by decide) (by decide) (by decide) (by decide)
     (by decide) rfl rfl rfl rfl⟩

/-- C3 counterexample: a concluded round (`wonState`: the game is over
with five recorded moves) does not reject undo — the state changes. -/
theorem claim_C3_counterexample :
    wonState.game_over = true ∧ 2 ≤ wonState.move_history.length ∧
    undo_last_move wonState ≠ wonState := by decide

/-- C3 (amended): the undo action is a no-op exactly on the
insufficient-history guard — it is rejected whenever fewer than two
moves exist, but a concluded round with two or more recorded moves is
not rejected: undo proceeds and clears the game-over and winner flags.
-/
theorem claim_C3_undo_guard (s : GameState) :
    (s.move_history.length < 2 → undo_last_move s = s) ∧
    (2 ≤ s.move_history.length →
      (undo_last_move s).game_over = false ∧
      (undo_last_move s).winner = none ∧
      (undo_last_move s).current_player = true) := by
  constructor
  · intro hlt
    unfold undo_last_move
    rw [if_neg (by omega)]
  · intro hge
    unfold undo_last_move
    rw [if_pos hge]
    exact ⟨rfl, rfl, rfl⟩

/-- Witness for C3: the fresh round (no moves) rejects undo unchanged,
and the concluded `wonState` has its game-over flag cleared by undo. -/
theorem claim_C3_undo_guard_witness :
    (playState.move_history.length < 2 ∧ undo_last_move playState = playState) ∧
    (2 ≤ wonState.move_history.length ∧
      (undo_last_move wonState).game_over = false ∧
      (undo_last_move wonState).winner = none ∧
      (undo_last_move wonState).current_player = true) :=
  ⟨⟨by decide, (claim_C3_undo_guard playState).1 (by decide)⟩,
   ⟨by decide, (claim_C3_undo_guard wonState).2 (by decide)⟩⟩

/-- C9 counterexample: the coordinate pair `(1, 1)` lies in
`[-1, 1] × [-1, 1]` yet `get_cell` returns the `(-1, -1)` sentinel
rather than a cell with row and col in `{0, 1, 2}`. -/
theorem claim_C9_counterexample :
    (-1 ≤ (1 : ℚ) ∧ (1 : ℚ) ≤ 1) ∧ get_cell 1 1 = (-1, -1) := by
  refine ⟨by norm_num, ?_⟩
  simp only [get_cell]
  rw [if_neg (by norm_num)]
  rw [if_pos (Or.inr (Or.inr (Or.inr (show pyInt ((1 + 1) * (3 / 2)) > 2 by
    norm_num [pyInt]))))]

/-- C9 (amended): per axis the cell is `⌊(coord + 1) * 1.5⌋`; every
coordinate pair in the half-open square `[-1, 1) × [-1, 1)` maps to a
cell with row and col in `{0, 1, 2}`; any coordinate strictly outside
`[-1, 1]` maps to `(-1, -1)`; and the boundary value exactly `1` (the
other coordinate within `[-1, 1]`) also maps to `(-1, -1)`. -/
theorem claim_C9_cell_mapping (x y : ℚ) :
    (-1 ≤ x → x < 1 → -1 ≤ y → y < 1 →
      get_cell x y = (⌊(y + 1) * (3 / 2)⌋, ⌊(x + 1) * (3 / 2)⌋) ∧
      0 ≤ ⌊(y + 1) * (3 / 2)⌋ ∧ ⌊(y + 1) * (3 / 2)⌋ ≤ 2 ∧
      0 ≤ ⌊(x + 1) * (3 / 2)⌋ ∧ ⌊(x + 1) * (3 / 2)⌋ ≤ 2) ∧
    ((x < -1 ∨ 1 < x ∨ y < -1 ∨ 1 < y) → get_cell x y = (-1, -1)) ∧
    ((x = 1 ∨ y = 1) → -1 ≤ x → x ≤ 1 → -1 ≤ y → y ≤ 1 →
      get_cell x y = (-1, -1)) := by
  refine ⟨?_, ?_, ?_⟩
  · intro hx1 hx2 hy1 hy2
    have hbx0 : (0 : ℚ) ≤ (x + 1) * (3 / 2) := by nlinarith
    have hbx3 : (x + 1) * (3 / 2) < 3 := by nlinarith
    have hby0 : (0 : ℚ) ≤ (y + 1) * (3 / 2) := by nlinarith
    have hby3 : (y + 1) * (3 / 2) < 3 := by nlinarith
    have hcol0 : 0 ≤ ⌊(x + 1) * (3 / 2)⌋ := by
      rw [Int.le_floor]
      exact_mod_cast hbx0
    have hcol2 : ⌊(x + 1) * (3 / 2)⌋ ≤ 2 := by
      have h3 : ⌊(x + 1) * (3 / 2)⌋ < 3 := by
        rw [Int.floor_lt]
        exact_mod_cast hbx3
      omega
    have hrow0 : 0 ≤ ⌊(y + 1) * (3 / 2)⌋ := by
      rw [Int.le_floor]
      exact_mod_cast hby0
    have hrow2 : ⌊(y + 1) * (3 / 2)⌋ ≤ 2 := by
      have h3 : ⌊(y + 1) * (3 / 2)⌋ < 3 := by
        rw [Int.floor_lt]
        exact_mod_cast hby3
      omega
    simp only [get_cell]
    rw [if_neg (by push_neg; exact ⟨hbx0, by linarith, hby0, by linarith⟩)]
    simp only [pyInt]
    rw [if_neg (not_lt.mpr hbx0), if_neg (not_lt.mpr hby0)]
    rw [if_neg (by push_neg; exact ⟨hrow0, by omega, hcol0, by omega⟩)]
    exact ⟨rfl, hrow0, hrow2, hcol0, hcol2⟩
  · intro hout
    simp only [get_cell]
    rcases hout with h | h | h | h
    · rw [if_pos (Or.inl (by nlinarith))]
    · rw [if_pos (Or.inr (Or.inl (by nlinarith)))]
    · rw [if_pos (Or.inr (Or.inr (Or.inl (by nlinarith))))]
    · rw [if_pos (Or.inr (Or.inr (Or.inr (by nlinarith))))]
  · intro hxy hx1 hx2 hy1 hy2
    have hbx0 : (0 : ℚ) ≤ (x + 1) * (3 / 2) := by nlinarith
    have hbx3 : (x + 1) * (3 / 2) ≤ 3 := by nlinarith
    have hby0 : (0 : ℚ) ≤ (y + 1) * (3 / 2) := by nlinarith
    have hby3 : (y + 1) * (3 / 2) ≤ 3 := by nlinarith
    simp only [get_cell]
    rw [if_neg (by push_neg; exact ⟨hbx0, hbx3, hby0, hby3⟩)]
    rcases hxy with rfl | rfl
    · have hcol : pyInt ((1 + 1) * (3 / 2)) = 3 := by
        norm_num [pyInt]
      rw [if_pos (Or.inr (Or.inr (Or.inr (by rw [hcol]; norm_num))))]
    · have hrow : pyInt ((1 + 1) * (3 / 2)) = 3 := by
        norm_num [pyInt]
      rw [if_pos (Or.inr (Or.inl (by rw [hrow]; norm_num)))]

/-! ### Click handling (C1, C2, C8) -/

lemma update_score_preserves (s : GameState) :
    (update_score s).board = s.board ∧
    (update_score s).game_over = s.game_over ∧
    (update_score s).last_move_time = s.last_move_time ∧
    (update_score s).move_delay = s.move_delay ∧
    (update_score s).move_history = s.move_history ∧
    (update_score s).current_player = s.current_player := by
  unfold update_score
  split_ifs <;> exact ⟨rfl, rfl, rfl, rfl, rfl, rfl⟩

lemma handle_click_noop (k : Nat) (t x y : ℚ) (s : GameState)
    (h : s.game_over = true ∨ s.current_player = false ∨
      ((get_cell x y).1 < 0 ∨ (get_cell x y).1 > 2 ∨
        (get_cell x y).2 < 0 ∨ (get_cell x y).2 > 2) ∨
      t - s.last_move_time < s.move_delay ∨
      getCell s.board (get_cell x y).1.toNat (get_cell x y).2.toNat ≠ none) :
    handle_click k t x y s = s := by
  simp only [handle_click]
  by_cases h1 : (s.game_over : Prop) ∨ ¬(s.current_player : Prop)
  · rw [if_pos h1]
  · rw [if_neg h1]
    push_neg at h1
    by_cases h2 : (get_cell x y).1 < 0 ∨ (get_cell x y).1 > 2 ∨
        (get_cell x y).2 < 0 ∨ (get_cell x y).2 > 2
    · rw [if_pos h2]
    · rw [if_neg h2]
      by_cases h3 : t - s.last_move_time < s.move_delay
      · rw [if_pos h3]
      · rw [if_neg h3]
        have hocc : ¬getCell s.board (get_cell x y).1.toNat
            (get_cell x y).2.toNat = none := by
          rcases h with h | h | h | h | h
          · rw [h] at h1
            simp at h1
          · rw [h] at h1
            simp at h1
          · exact absurd h h2
          · exact absurd h h3
          · exact h
        rw [if_neg hocc]

/-- C1 (code-bug evidence): the Play-as-O menu selection runs the
heuristic exactly once — the computer takes the center of the empty
board — but the controller never enters the player's turn:
`current_player` stays false, so the next click on the empty corner
cell is rejected with no state change, where the claim expects it to
be accepted as a placement. -/
theorem claim_C1_play_o_no_player_turn :
    (handle_menu_click 0 (2 / 5) (2 / 5) initState).board =
      [[none, none, none], [none, some .X, none], [none, none, none]] ∧
    (handle_menu_click 0 (2 / 5) (2 / 5) initState).in_menu = false ∧
    (handle_menu_click 0 (2 / 5) (2 / 5) initState).current_player = false ∧
    handle_click 1 10 (-(4 / 5)) (-(4 / 5))
        (handle_menu_click 0 (2 / 5) (2 / 5) initState) =
      handle_menu_click 0 (2 / 5) (2 / 5) initState := by
  have hfind : menuButtons.find? (fun btn =>
      is_point_in_rect (2 / 5) (2 / 5) btn.2.1 btn.2.2.1 btn.2.2.2.1
        btn.2.2.2.2) =
      some ("play_o", (3 / 10, 3 / 5 - 9 / 50 - 3 / 50, 2 / 5, 9 / 50)) := by
    rw [menuButtons, List.find?_cons_of_neg, List.find?_cons_of_pos]
    · simp only [is_point_in_rect, decide_eq_true_eq]
      norm_num
    · simp only [is_point_in_rect, decide_eq_false_iff_not]
      norm_num
  have hmenu : handle_menu_click 0 (2 / 5) (2 / 5) initState =
      { initState with
          player_symbol := some .O
          computer_symbol := some .X
          current_player := false
          in_menu := false
          board := [[none, none, none], [none, some .X, none],
                    [none, none, none]]
          last_computer_move := some (1, 1) } := by
    simp only [handle_menu_click, hfind]
    rw [if_pos trivial]
    rfl
  refine ⟨?_, ?_, ?_, ?_⟩
  · rw [hmenu]
  · rw [hmenu]
  · rw [hmenu]
  · rw [hmenu]
    exact handle_click_noop 1 10 (-(4 / 5)) (-(4 / 5)) _
      (Or.inr (Or.inl rfl))

/-- C2 (code-bug evidence): on the winner screen (faded in, score
`1-0-0`), the restart click does reset the board and clear the history,
but it also zeroes all three score counters — the claim (and §4.6 of
the spec) says the scoreboard is preserved. -/
theorem claim_C2_restart_resets_score :
    wonState.show_winner_screen = true ∧
    (7 / 10 : ℚ) ≤ wonState.fade_alpha ∧
    wonState.score_player = 1 ∧
    (handle_winner_screen_click 0 (-(1 / 4)) (-(1 / 4)) wonState).score_player
      = 0 ∧
    (handle_winner_screen_click 0 (-(1 / 4)) (-(1 / 4)) wonState).score_computer
      = 0 ∧
    (handle_winner_screen_click 0 (-(1 / 4)) (-(1 / 4)) wonState).score_draws
      = 0 ∧
    (handle_winner_screen_click 0 (-(1 / 4)) (-(1 / 4)) wonState).board
      = initBoard ∧
    (handle_winner_screen_click 0 (-(1 / 4)) (-(1 / 4)) wonState).move_history
      = [] := by
  have hres : handle_winner_screen_click 0 (-(1 / 4)) (-(1 / 4)) wonState =
      reset_game 0 { wonState with fade_alpha := 0 } := by
    simp only [handle_winner_screen_click]
    rw [if_neg, if_pos]
    · simp only [is_point_in_rect, decide_eq_true_eq]
      norm_num
    · simp only [wonState]
      norm_num
  rw [hres]
  have hreset : reset_game 0 { wonState with fade_alpha := 0 } =
      { wonState with
          board := initBoard
          current_player := true
          game_over := false
          winner := none
          in_menu := true
          show_winner_screen := false
          fade_alpha := 0
          player_symbol := none
          computer_symbol := none
          move_history := []
          score_player := 0
          score_computer := 0
          score_draws := 0
          last_computer_move := none } := by
    simp only [reset_game]
    rw [if_neg (by simp)]
  rw [hreset]
  exact ⟨rfl, by norm_num [wonState], rfl, rfl, rfl, rfl, rfl, rfl⟩

lemma handle_click_accepted (k : Nat) (t x y : ℚ) (s : GameState)
    (hgo : s.game_over = false) (hcp : s.current_player = true)
    (hcell : ¬((get_cell x y).1 < 0 ∨ (get_cell x y).1 > 2 ∨
      (get_cell x y).2 < 0 ∨ (get_cell x y).2 > 2))
    (hcool : ¬(t - s.last_move_time < s.move_delay))
    (hemp : getCell s.board (get_cell x y).1.toNat (get_cell x y).2.toNat
      = none) :
    (handle_click k t x y s).last_move_time = t ∧
    (handle_click k t x y s).move_delay = s.move_delay ∧
    ∃ rest, (handle_click k t x y s).move_history =
      s.move_history ++
        ((get_cell x y).1.toNat, (get_cell x y).2.toNat, s.player_symbol) ::
          rest := by
  have hgate1 : ¬((s.game_over : Prop) ∨ ¬(s.current_player : Prop)) := by
    simp [hgo, hcp]
  simp only [handle_click]
  rw [if_neg hgate1, if_neg hcell, if_neg hcool, if_pos hemp]
  by_cases hconc : (check_winner (setCell s.board (get_cell x y).1.toNat
      (get_cell x y).2.toNat s.player_symbol)).isSome = true ∨
      is_board_full (setCell s.board (get_cell x y).1.toNat
        (get_cell x y).2.toNat s.player_symbol) = true
  · rw [if_pos hconc]
    obtain ⟨_, _, hl, hd, hm, _⟩ := update_score_preserves
      { s with
        board := setCell s.board (get_cell x y).1.toNat
          (get_cell x y).2.toNat s.player_symbol
        move_history := s.move_history ++
          [((get_cell x y).1.toNat, (get_cell x y).2.toNat, s.player_symbol)]
        last_move_time := t
        winner := check_winner (setCell s.board (get_cell x y).1.toNat
          (get_cell x y).2.toNat s.player_symbol)
        game_over := true
        show_winner_screen := true
        fade_alpha := 0 }
    exact ⟨hl, hd, [], hm⟩
  · rw [if_neg hconc]
    rcases hcm : (computer_move k
        (setCell s.board (get_cell x y).1.toNat (get_cell x y).2.toNat
          s.player_symbol)
        s.computer_symbol s.player_symbol).2 with _ | ⟨cr, cc⟩
    · exact ⟨rfl, rfl, [], rfl⟩
    · split_ifs with hconc2
      · obtain ⟨_, _, hl, hd, hm, _⟩ := update_score_preserves
          { s with
            board := (computer_move k
              (setCell s.board (get_cell x y).1.toNat (get_cell x y).2.toNat
                s.player_symbol) s.computer_symbol s.player_symbol).1
            last_computer_move := some (cr, cc)
            move_history := (s.move_history ++
              [((get_cell x y).1.toNat, (get_cell x y).2.toNat,
                s.player_symbol)]) ++ [(cr, cc, s.computer_symbol)]
            last_move_time := t
            winner := check_winner (computer_move k
              (setCell s.board (get_cell x y).1.toNat (get_cell x y).2.toNat
                s.player_symbol) s.computer_symbol s.player_symbol).1
            current_player := true
            game_over := true
            show_winner_screen := true
            fade_alpha := 0 }
        refine ⟨hl, hd, [(cr, cc, s.computer_symbol)], ?_⟩
        rw [hm]
        simp
      · refine ⟨rfl, rfl, [(cr, cc, s.computer_symbol)], ?_⟩
        simp

lemma get_cell_eval_corner : get_cell (-(4 / 5)) (-(4 / 5)) = (0, 0) := by
  norm_num [get_cell, pyInt]

/-- C8: a click during the opponent's turn or after the round ended, a
click mapping to no cell, a click within the cooldown measured from the
last accepted click, and a click on an occupied cell are all silently
ignored with the state unchanged; an accepted click stamps the cooldown
clock and appends the move, so a second click within one cooldown
window — on any cell — is a no-op: exactly one placement is accepted,
and rejected clicks never restart the cooldown (they leave
`last_move_time` untouched, being no-ops). -/
theorem claim_C8_click_gates (k k2 : Nat) (t t2 x y x2 y2 : ℚ)
    (s : GameState) :
    ((s.game_over = true ∨ s.current_player = false) →
      handle_click k t x y s = s) ∧
    (((get_cell x y).1 < 0 ∨ (get_cell x y).1 > 2 ∨ (get_cell x y).2 < 0 ∨
        (get_cell x y).2 > 2) → handle_click k t x y s = s) ∧
    (t - s.last_move_time < s.move_delay → handle_click k t x y s = s) ∧
    (getCell s.board (get_cell x y).1.toNat (get_cell x y).2.toNat ≠ none →
      handle_click k t x y s = s) ∧
    (s.game_over = false → s.current_player = true →
      ¬((get_cell x y).1 < 0 ∨ (get_cell x y).1 > 2 ∨ (get_cell x y).2 < 0 ∨
        (get_cell x y).2 > 2) →
      ¬(t - s.last_move_time < s.move_delay) →
      getCell s.board (get_cell x y).1.toNat (get_cell x y).2.toNat = none →
      t2 - t < s.move_delay →
      (handle_click k t x y s).last_move_time = t ∧
      (∃ rest, (handle_click k t x y s).move_history =
        s.move_history ++
          ((get_cell x y).1.toNat, (get_cell x y).2.toNat, s.player_symbol)
            :: rest) ∧
      handle_click k2 t2 x2 y2 (handle_click k t x y s) =
        handle_click k t x y s) := by
  refine ⟨?_, ?_, ?_, ?_, ?_⟩
  · intro h
    rcases h with h | h
    · exact handle_click_noop k t x y s (Or.inl h)
    · exact handle_click_noop k t x y s (Or.inr (Or.inl h))
  · intro h
    exact handle_click_noop k t x y s (Or.inr (Or.inr (Or.inl h)))
  · intro h
    exact handle_click_noop k t x y s (Or.inr (Or.inr (Or.inr (Or.inl h))))
  · intro h
    exact handle_click_noop k t x y s (Or.inr (Or.inr (Or.inr (Or.inr h))))
  · intro hgo hcp hcell hcool hemp hnext
    obtain ⟨hl, hd, rest, hm⟩ :=
      handle_click_accepted k t x y s hgo hcp hcell hcool hemp
    refine ⟨hl, ⟨rest, hm⟩, ?_⟩
    exact handle_click_noop k2 t2 x2 y2 _
      (Or.inr (Or.inr (Or.inr (Or.inl (by rw [hl, hd]; exact hnext)))))

/-- Witness for C8: from a fresh round (player `X`, empty board,
cooldown clock at zero), a click on cell `(0, 0)` at `t = 1` is
accepted, and a second click at `t = 1.1` — within the `0.3` cooldown —
changes nothing. -/
theorem claim_C8_click_gates_witness :
    playState.game_over = false ∧ playState.current_player = true ∧
    ¬((get_cell (-(4 / 5)) (-(4 / 5))).1 < 0 ∨
      (get_cell (-(4 / 5)) (-(4 / 5))).1 > 2 ∨
      (get_cell (-(4 / 5)) (-(4 / 5))).2 < 0 ∨
      (get_cell (-(4 / 5)) (-(4 / 5))).2 > 2) ∧
    ¬((1 : ℚ) - playState.last_move_time < playState.move_delay) ∧
    getCell playState.board (get_cell (-(4 / 5)) (-(4 / 5))).1.toNat
      (get_cell (-(4 / 5)) (-(4 / 5))).2.toNat = none ∧
    (11 / 10 : ℚ) - 1 < playState.move_delay ∧
    ((handle_click 0 1 (-(4 / 5)) (-(4 / 5)) playState).last_move_time = 1 ∧
     (∃ rest,
       (handle_click 0 1 (-(4 / 5)) (-(4 / 5)) playState).move_history =
         playState.move_history ++
           ((get_cell (-(4 / 5)) (-(4 / 5))).1.toNat,
             (get_cell (-(4 / 5)) (-(4 / 5))).2.toNat,
             playState.player_symbol) :: rest) ∧
     handle_click 1 (11 / 10) 0 0
         (handle_click 0 1 (-(4 / 5)) (-(4 / 5)) playState) =
       handle_click 0 1 (-(4 / 5)) (-(4 / 5)) playState) :=
  ⟨rfl, rfl,
   by rw [get_cell_eval_corner]; norm_num,
   by norm_num [playState, twoMoveState],
   by rw [get_cell_eval_corner]; rfl,
   by norm_num [playState, twoMoveState],
   (claim_C8_click_gates 0 1 1 (11 / 10) (-(4 / 5)) (-(4 / 5)) 0 0
       playState).2.2.2.2
     rfl rfl
     (by rw [get_cell_eval_corner]; norm_num)
     (by norm_num [playState, twoMoveState])
     (by rw [get_cell_eval_corner]; rfl)
     (by norm_num [playState, twoMoveState])⟩

/-- Witness for C9 (amended): the in-range pair `(0.5, -0.5)` maps
through the floor formula to cell `(0, 2)`-style indices within
`{0, 1, 2}`. -/
theorem claim_C9_cell_mapping_witness :
    (-1 ≤ (1 / 2 : ℚ) ∧ (1 / 2 : ℚ) < 1 ∧
      -1 ≤ (-(1 / 2) : ℚ) ∧ (-(1 / 2) : ℚ) < 1) ∧
    (get_cell (1 / 2) (-(1 / 2)) =
      (⌊((-(1 / 2) : ℚ) + 1) * (3 / 2)⌋, ⌊((1 / 2 : ℚ) + 1) * (3 / 2)⌋) ∧
     0 ≤ ⌊((-(1 / 2) : ℚ) + 1) * (3 / 2)⌋ ∧
     ⌊((-(1 / 2) : ℚ) + 1) * (3 / 2)⌋ ≤ 2 ∧
     0 ≤ ⌊((1 / 2 : ℚ) + 1) * (3 / 2)⌋ ∧
     ⌊((1 / 2 : ℚ) + 1) * (3 / 2)⌋ ≤ 2) :=
  ⟨by norm_num,
   (claim_C9_cell_mapping (1 / 2) (-(1 / 2))).1 (by norm_num) (by norm_num)
     (by norm_num) (by norm_num)⟩
